import Mathlib

/-!
Verification of the graph trait-configuration and DOT-export pipeline.

The development shallowly embeds two Go packages:

* package `graph` (file `traits.go`): the `Traits` record and its functional
  options `Directed`, `Acyclic`, `Weighted`, `Rooted`, `Tree`.  A Go option
  has type `func(*Traits)` and mutates its argument; here each option is the
  state transformer it applies, of type `Traits → Traits`.

* package `draw`: the DOT exporter.  `generateDOT` walks an adjacency map and
  builds a `description`; `renderDOT` runs the constant text template
  `dotTemplate` over it and writes the result to a sink.  Go map iteration
  order is unspecified, so an adjacency map is embedded as an association
  list in the order the map yields its entries; Go's text/template, however,
  ranges over a map in ascending key order, which is reflected in
  `renderAttrs`.  The template guard on the target field uses Go template
  truthiness (a zero value such as the integer 0, the empty string, or an
  unset `interface\x7b\x7d` field counts as false); the embedding passes this
  truthiness test explicitly as a `truthy` function on the key type, and the
  display form of a key (Go `%v` formatting) as a `shw` function.
-/

namespace graph

/-- The `Traits` record from `traits.go`: four independent boolean flags set
via functional options at construction time. -/
structure Traits where
  IsDirected : Bool
  IsAcyclic : Bool
  IsWeighted : Bool
  IsRooted : Bool
  deriving DecidableEq, Repr

/-- Option `Directed()`: sets the `IsDirected` flag. -/
def Directed (t : Traits) : Traits := { t with IsDirected := true }

/-- Option `Acyclic()`: sets the `IsAcyclic` flag. -/
def Acyclic (t : Traits) : Traits := { t with IsAcyclic := true }

/-- Option `Weighted()`: sets the `IsWeighted` flag. -/
def Weighted (t : Traits) : Traits := { t with IsWeighted := true }

/-- Option `Rooted()`: sets the `IsRooted` flag. -/
def Rooted (t : Traits) : Traits := { t with IsRooted := true }

/-- Option `Tree()`: applies `Acyclic` and then `Rooted`, exactly as the Go
body runs `Acyclic()(t); Rooted()(t)`. -/
def Tree (t : Traits) : Traits := Rooted (Acyclic t)

/-- A name for each of the five functional options, so that sequences of
options (as passed to `graph.New`) can be quantified over. -/
inductive TraitsOption where
  | directed
  | acyclic
  | weighted
  | rooted
  | tree
  deriving DecidableEq, Repr

/-- Interpret an option name as the transformer it denotes. -/
def applyOption : TraitsOption → Traits → Traits
  | .directed => Directed
  | .acyclic => Acyclic
  | .weighted => Weighted
  | .rooted => Rooted
  | .tree => Tree

/-- Apply a sequence of options left to right, as `graph.New` does with its
variadic option list. -/
def applyOptions (opts : List TraitsOption) (t : Traits) : Traits :=
  opts.foldl (fun acc o => applyOption o acc) t

end graph

namespace draw

open graph

/-- The constant DOT text template from the `draw` package, byte for byte. -/
def dotTemplate : String :=
  "strict \x7b\x7b.GraphType\x7d\x7d \x7b\n\x7b\x7brange $s := .Statements\x7d\x7d\n\t\x7b\x7b.Source\x7d\x7d \x7b\x7bif .Target\x7d\x7d\x7b\x7b$.EdgeOperator\x7d\x7d \x7b\x7b.Target\x7d\x7d [ \x7b\x7brange $k, $v := .Attributes\x7d\x7d\x7b\x7b$k\x7d\x7d=\x22\x7b\x7b$v\x7d\x7d\x22, \x7b\x7bend\x7d\x7d weight=\x7b\x7b.Weight\x7d\x7d ]\x7b\x7bend\x7d\x7d;\n\x7b\x7bend\x7d\x7d\n\x7d\n"

/-- Per-edge payload read from the adjacency view
(`edge.Properties.Weight` and `edge.Properties.Attributes`). -/
structure EdgeProperties where
  Weight : Int
  Attributes : List (String × String)
  deriving DecidableEq, Repr

/-- The `statement` record of the `draw` package.  In Go `Source` and
`Target` are `interface\x7b\x7d` fields; `Target` stays nil for an isolated
vertex, which the embedding writes as `none`.  The zero values Go leaves in
the other fields of `statement\x7bSource: vertex\x7d` appear explicitly. -/
structure statement (K : Type) where
  Source : K
  Target : Option K
  Weight : Int
  Attributes : List (String × String)
  deriving DecidableEq, Repr

/-- The `description` record: the render input assembled by `generateDOT`. -/
structure description (K : Type) where
  GraphType : String
  EdgeOperator : String
  Statements : List (statement K)
  deriving DecidableEq, Repr

/-- The adjacency view `g.AdjacencyMap()` returns: each vertex paired with
its adjacent vertices and their edge data, as an association list in the
order Go map iteration yields the entries. -/
abbrev AdjacencyMap (K : Type) := List (K × List (K × EdgeProperties))

/-- The statement Go builds for a vertex with an empty adjacency set:
`statement\x7bSource: vertex\x7d`, all other fields left at their zero
values. -/
def isolatedStatement {K : Type} (v : K) : statement K :=
  { Source := v, Target := none, Weight := 0, Attributes := [] }

/-- The statement Go builds for one adjacency entry: source, target, weight
and attributes copied verbatim from the entry. -/
def edgeStatement {K : Type} (v : K) (q : K × EdgeProperties) : statement K :=
  { Source := v, Target := some q.1, Weight := q.2.Weight, Attributes := q.2.Attributes }

/-- The statements generated for one entry of the adjacency map: the body of
the `for vertex, adjacencies := range adjacencyMap` loop in `generateDOT`.
An empty adjacency set contributes one isolated-vertex statement (the
`continue` branch); otherwise each adjacency contributes one edge
statement. -/
def statementsOfEntry {K : Type} (p : K × List (K × EdgeProperties)) : List (statement K) :=
  if p.2.isEmpty then [isolatedStatement p.1]
  else p.2.map (edgeStatement p.1)

/-- `generateDOT`, success path: header fields from the directedness trait
(defaults `"graph"` and `"--"`, overwritten to `"digraph"` and `"->"` when
`Traits().IsDirected`), statements appended entry by entry. -/
def generateDOT {K : Type} (traits : Traits) (adjacencyMap : AdjacencyMap K) :
    description K where
  GraphType := if traits.IsDirected then "digraph" else "graph"
  EdgeOperator := if traits.IsDirected then "->" else "--"
  Statements := adjacencyMap.flatMap statementsOfEntry

/-- Key order used by Go's text/template when ranging over a
`map[string]string`: ascending string order. -/
def attrLE (a b : String × String) : Prop := a.1 ≤ b.1

instance : DecidableRel attrLE := fun a b => inferInstanceAs (Decidable (a.1 ≤ b.1))

instance : IsTotal (String × String) attrLE := ⟨fun a b => le_total a.1 b.1⟩

instance : IsTrans (String × String) attrLE := ⟨fun _ _ _ hab hbc => le_trans hab hbc⟩

/-- The attribute mapping in the key order text/template ranges over it. -/
def sortAttrs (attrs : List (String × String)) : List (String × String) :=
  List.insertionSort attrLE attrs

/-- Output of `\x7b\x7brange $k, $v := .Attributes\x7d\x7d...\x7b\x7bend\x7d\x7d`:
one chunk per attribute, in ascending key order. -/
def renderAttrs (attrs : List (String × String)) : String :=
  String.join ((sortAttrs attrs).map (fun kv => kv.1 ++ "=\x22" ++ kv.2 ++ "\x22, "))

/-- The text the template's range body produces for one statement.  The body
is: a newline, a tab, the source, a space, then — only when the target field
passes Go template truthiness — the edge operator, the target and the
bracket clause, then a semicolon and a newline.  The three cases enumerate
`Target` nil (isolated vertex), a target failing the truthiness test (its
key type's zero value), and a truthy target. -/
def renderStatement {K : Type} (shw : K → String) (truthy : K → Bool)
    (edgeOperator : String) (s : statement K) : String :=
  match s.Target with
  | none => "\n\t" ++ shw s.Source ++ " ;\n"
  | some t =>
    if truthy t then
      "\n\t" ++ shw s.Source ++ " " ++ edgeOperator ++ " " ++ shw t ++ " [ " ++
        renderAttrs s.Attributes ++ " weight=" ++ toString s.Weight ++ " ];\n"
    else
      "\n\t" ++ shw s.Source ++ " ;\n"

/-- The full text `dotTemplate` produces for a description: the `strict`
header line, the range over the statements, and the closing line. -/
def executeDOT {K : Type} (shw : K → String) (truthy : K → Bool)
    (d : description K) : String :=
  "strict " ++ d.GraphType ++ " \x7b\n" ++
    String.join (d.Statements.map (renderStatement shw truthy d.EdgeOperator)) ++
    "\n\x7d\n"

/-- Splits template text into the contents of its actions (the parts the
template engine must understand), in order; `none` when an action is left
unclosed.  The accumulator `cur` is `some` while inside an action.  This and
`checkActs` model the parse step Go's text/template performs on the template
string, restricted to the constructs the template uses. -/
def splitActsAux : List Char → Option (List Char) → List (List Char) →
    Option (List (List Char))
  | [], none, acc => some acc.reverse
  | [], some _, _ => none
  | '\x7b' :: '\x7b' :: rest, none, acc => splitActsAux rest (some []) acc
  | '\x7d' :: '\x7d' :: rest, some cur, acc => splitActsAux rest none (cur.reverse :: acc)
  | c :: rest, some cur, acc => splitActsAux rest (some (c :: cur)) acc
  | _ :: rest, none, acc => splitActsAux rest none acc

/-- Characters an action of this template may contain: identifiers, field
chains, variables, assignments and quoted literals. -/
def isActChar (c : Char) : Bool :=
  c.isAlphanum || c == '.' || c == '$' || c == '_' || c == ' ' ||
    c == ':' || c == '=' || c == ',' || c == '\x22'

/-- First space-separated word of an action. -/
def firstWord (a : List Char) : List Char :=
  match (a.splitOn ' ').filter (fun w => !w.isEmpty) with
  | [] => []
  | w :: _ => w

/-- Whether an action is exactly the block terminator `end`. -/
def isEndAct (a : List Char) : Bool :=
  (a.splitOn ' ').filter (fun w => !w.isEmpty) == ["end".toList]

/-- Whether an action opens a block that a matching `end` must close. -/
def opensBlock (a : List Char) : Bool :=
  firstWord a == "range".toList || firstWord a == "if".toList ||
    firstWord a == "with".toList || firstWord a == "block".toList

/-- An action is well formed when it has some content and every character is
admissible. -/
def validAct (a : List Char) : Bool :=
  a.any (fun c => c != ' ') && a.all isActChar

/-- Checks a sequence of actions: every action well formed, every block
opener matched by an `end`, no stray `end`.  `d` is the open-block depth. -/
def checkActs : List (List Char) → Nat → Bool
  | [], 0 => true
  | [], _ + 1 => false
  | a :: rest, d =>
    if !validAct a then false
    else if isEndAct a then
      match d with
      | 0 => false
      | d' + 1 => checkActs rest d'
    else if opensBlock a then checkActs rest (d + 1)
    else checkActs rest d

/-- Whether the template engine accepts a template string: all actions close,
are well formed, and block structure balances. -/
def templateParses (tpl : String) : Bool :=
  match splitActsAux tpl.toList none [] with
  | none => false
  | some acts => checkActs acts 0

/-- `renderDOT`: parses `dotTemplate` and on success executes it over the
description.  The return value models the I/O of the Go function: the list
of chunks handed to the sink, paired with the internal error (`none` when
rendering reached the sink).  A sink-level write failure is environmental
and outside this model. -/
def renderDOT {K : Type} (shw : K → String) (truthy : K → Bool)
    (d : description K) : List String × Option String :=
  if templateParses dotTemplate then ([executeDOT shw truthy d], none)
  else ([], some "failed to parse template")

/-- The exported entry point `DOT`: obtains the adjacency map (its result is
passed in as an `Except`, modelling the map/error pair the collaborator
returns), generates the description and renders it.  When the adjacency map
cannot be obtained, the error is wrapped with a message naming the failing
stage and nothing is ever handed to the sink. -/
def DOT {K : Type} (shw : K → String) (truthy : K → Bool) (traits : Traits)
    (adjacencyMapResult : Except String (AdjacencyMap K)) :
    List String × Option String :=
  match adjacencyMapResult with
  | .error e => ([], some ("failed to generate DOT description: " ++ e))
  | .ok m => renderDOT shw truthy (generateDOT traits m)

/-- Go `%v` display form of an integer vertex key. -/
def intShow (n : Int) : String := toString n

/-- Go template truthiness of an integer: nonzero. -/
def intTruthy (n : Int) : Bool := n != 0

/-- Go `%v` display form of a string vertex key. -/
def strShow (s : String) : String := s

/-- Go template truthiness of a string: nonempty. -/
def strTruthy (s : String) : Bool := s != ""

/-- The line claim C2 predicts for every statement that has a target,
following the spec sentence rendering an edge statement as source,
edge-operator, target and a bracket clause of attributes and weight, with
the whitespace the template actually puts around those fields. -/
def specEdgeLine {K : Type} (shw : K → String) (edgeOperator : String)
    (s : statement K) (t : K) : String :=
  "\n\t" ++ shw s.Source ++ " " ++ edgeOperator ++ " " ++ shw t ++ " [ " ++
    renderAttrs s.Attributes ++ " weight=" ++ toString s.Weight ++ " ];\n"

end draw

namespace graph

lemma applyOption_idem (o : TraitsOption) (t : Traits) :
    applyOption o (applyOption o t) = applyOption o t := by
  cases o <;> rfl

lemma applyOption_comm (o o2 : TraitsOption) (t : Traits) :
    applyOption o (applyOption o2 t) = applyOption o2 (applyOption o t) := by
  cases o <;> cases o2 <;> rfl

lemma applyOptions_cons (o : TraitsOption) (l : List TraitsOption) (t : Traits) :
    applyOptions (o :: l) t = applyOptions l (applyOption o t) := rfl

lemma applyOption_applyOptions (o : TraitsOption) (l : List TraitsOption) (t : Traits) :
    applyOption o (applyOptions l t) = applyOptions l (applyOption o t) := by
  induction l generalizing t with
  | nil => rfl
  | cons o2 l ih =>
    calc applyOption o (applyOptions (o2 :: l) t)
        = applyOptions l (applyOption o (applyOption o2 t)) := ih _
      _ = applyOptions l (applyOption o2 (applyOption o t)) := by
            rw [applyOption_comm]
      _ = applyOptions (o2 :: l) (applyOption o t) := rfl

lemma applyOptions_perm {l l2 : List TraitsOption} (h : l.Perm l2) (t : Traits) :
    applyOptions l t = applyOptions l2 t := by
  induction h generalizing t with
  | nil => rfl
  | cons o _ ih => rw [applyOptions_cons, applyOptions_cons, ih]
  | swap o o2 l => rw [applyOptions_cons, applyOptions_cons, applyOptions_cons,
      applyOptions_cons, applyOption_comm]
  | trans _ _ ih1 ih2 => rw [ih1, ih2]

lemma applyOptions_append (l l2 : List TraitsOption) (t : Traits) :
    applyOptions (l ++ l2) t = applyOptions l2 (applyOptions l t) := by
  simp [applyOptions, List.foldl_append]

lemma applyOptions_self (l : List TraitsOption) (t : Traits) :
    applyOptions l (applyOptions l t) = applyOptions l t := by
  induction l generalizing t with
  | nil => rfl
  | cons o l ih =>
    calc applyOptions (o :: l) (applyOptions (o :: l) t)
        = applyOptions l (applyOption o (applyOptions l (applyOption o t))) := rfl
      _ = applyOptions l (applyOptions l (applyOption o (applyOption o t))) := by
            rw [applyOption_applyOptions]
      _ = applyOptions l (applyOptions l (applyOption o t)) := by
            rw [applyOption_idem]
      _ = applyOptions l (applyOption o t) := ih _
      _ = applyOptions (o :: l) t := rfl

/-- C7: the `Tree` option yields exactly the `Traits` value obtained by
applying the `Acyclic` and `Rooted` options, in either order; it sets the
two existing flags and touches nothing else. -/
theorem Tree_eq_Acyclic_Rooted (t : Traits) :
    Tree t = Rooted (Acyclic t) ∧ Tree t = Acyclic (Rooted t) ∧
      (Tree t).IsAcyclic = true ∧ (Tree t).IsRooted = true ∧
      (Tree t).IsDirected = t.IsDirected ∧ (Tree t).IsWeighted = t.IsWeighted :=
  ⟨rfl, rfl, rfl, rfl, rfl, rfl⟩

/-- C8: every trait option only ever sets flags (each flag of the result is
at least the flag of the input), and for every starting `Traits` value the
result of a sequence of options is invariant under permuting the sequence
and under running the whole sequence twice. -/
theorem applyOptions_monotone_comm_idem (t u : Traits) (o : TraitsOption)
    (l l2 : List TraitsOption) (h : l.Perm l2) :
    applyOptions l t = applyOptions l2 t ∧
      applyOptions (l ++ l) t = applyOptions l t ∧
      u.IsDirected ≤ (applyOption o u).IsDirected ∧
      u.IsAcyclic ≤ (applyOption o u).IsAcyclic ∧
      u.IsWeighted ≤ (applyOption o u).IsWeighted ∧
      u.IsRooted ≤ (applyOption o u).IsRooted := by
  refine ⟨applyOptions_perm h t, ?_, ?_, ?_, ?_, ?_⟩
  · rw [applyOptions_append, applyOptions_self]
  all_goals cases o <;>
    simp [applyOption, Directed, Acyclic, Weighted, Rooted, Tree, Bool.le_true, le_refl]

/-- Witness for C8 at a concrete input: swapping `Directed` and `Tree` in
the option list leaves the resulting `Traits` unchanged, and so does
applying the list twice. -/
theorem applyOptions_monotone_comm_idem_witness :
    applyOptions [TraitsOption.directed, TraitsOption.tree]
          { IsDirected := false, IsAcyclic := false, IsWeighted := false, IsRooted := false } =
        applyOptions [TraitsOption.tree, TraitsOption.directed]
          { IsDirected := false, IsAcyclic := false, IsWeighted := false, IsRooted := false } ∧
      applyOptions
          ([TraitsOption.directed, TraitsOption.tree] ++ [TraitsOption.directed, TraitsOption.tree])
          { IsDirected := false, IsAcyclic := false, IsWeighted := false, IsRooted := false } =
        applyOptions [TraitsOption.directed, TraitsOption.tree]
          { IsDirected := false, IsAcyclic := false, IsWeighted := false, IsRooted := false } ∧
      Traits.IsDirected
          { IsDirected := true, IsAcyclic := false, IsWeighted := false, IsRooted := false } ≤
        (applyOption TraitsOption.weighted
            { IsDirected := true, IsAcyclic := false, IsWeighted := false, IsRooted := false }).IsDirected ∧
      Traits.IsAcyclic
          { IsDirected := true, IsAcyclic := false, IsWeighted := false, IsRooted := false } ≤
        (applyOption TraitsOption.weighted
            { IsDirected := true, IsAcyclic := false, IsWeighted := false, IsRooted := false }).IsAcyclic ∧
      Traits.IsWeighted
          { IsDirected := true, IsAcyclic := false, IsWeighted := false, IsRooted := false } ≤
        (applyOption TraitsOption.weighted
            { IsDirected := true, IsAcyclic := false, IsWeighted := false, IsRooted := false }).IsWeighted ∧
      Traits.IsRooted
          { IsDirected := true, IsAcyclic := false, IsWeighted := false, IsRooted := false } ≤
        (applyOption TraitsOption.weighted
            { IsDirected := true, IsAcyclic := false, IsWeighted := false, IsRooted := false }).IsRooted :=
  applyOptions_monotone_comm_idem
    { IsDirected := false, IsAcyclic := false, IsWeighted := false, IsRooted := false }
    { IsDirected := true, IsAcyclic := false, IsWeighted := false, IsRooted := false }
    TraitsOption.weighted
    [TraitsOption.directed, TraitsOption.tree] [TraitsOption.tree, TraitsOption.directed]
    (List.Perm.swap _ _ _)

end graph

namespace draw

open graph

/-- C1: the export description built by `generateDOT` carries the pair
`digraph` and `->` exactly when `Traits().IsDirected` holds, and the pair
`graph` and `--` otherwise; the two header fields always form one of these
two consistent pairs, and every statement of the description is rendered
with that single `EdgeOperator` field. -/
theorem generateDOT_type_operator {K : Type} (traits : Traits) (m : AdjacencyMap K) :
    ((generateDOT traits m).GraphType, (generateDOT traits m).EdgeOperator) =
      if traits.IsDirected then ("digraph", "->") else ("graph", "--") := by
  cases h : traits.IsDirected <;> simp [generateDOT, h]

/-- C5: when the adjacency map cannot be obtained, `DOT` returns the error
wrapped with the failing stage and hands no chunk to the sink (the renderer
is never invoked). -/
theorem DOT_adjacency_error {K : Type} (shw : K → String) (truthy : K → Bool)
    (traits : Traits) (e : String) :
    DOT shw truthy traits (Except.error e : Except String (AdjacencyMap K)) =
      ([], some ("failed to generate DOT description: " ++ e)) := rfl

/-- C6: a statement whose target is present but equals the zero value of its
key type (integer 0, empty string) fails the template truthiness test, so
the renderer emits the isolated-vertex form of the line: no edge operator,
no target, no bracket clause. -/
theorem renderStatement_zero_target :
    (∀ (s : statement Int) (t : Int) (edgeOperator : String),
        s.Target = some t → t = 0 →
        renderStatement intShow intTruthy edgeOperator s =
          "\n\t" ++ intShow s.Source ++ " ;\n") ∧
      ∀ (s : statement String) (t : String) (edgeOperator : String),
        s.Target = some t → t = "" →
        renderStatement strShow strTruthy edgeOperator s =
          "\n\t" ++ strShow s.Source ++ " ;\n" := by
  constructor <;>
    (intro s t op h hz; subst hz; simp [renderStatement, h, intTruthy, strTruthy])

lemma templateParses_dotTemplate : templateParses dotTemplate = true := by rfl

/-- C9: the constant template always parses, so the template-parse error
branch of `renderDOT` is unreachable: rendering always reaches the sink
with the executed document and reports no internal error; any failure of a
render call can only come from the sink rejecting that single write. -/
theorem renderDOT_no_parse_error {K : Type} (shw : K → String) (truthy : K → Bool)
    (d : description K) :
    renderDOT shw truthy d = ([executeDOT shw truthy d], none) := by
  simp [renderDOT, templateParses_dotTemplate]

/-- Counterexample to C2 as stated: the statement with source 1, target 0,
weight 5 and no attributes has a target, yet its rendered line is not the
claimed edge form — the zero-valued target fails the template truthiness
test, so the operator, target and bracket clause are all dropped. -/
theorem renderStatement_edge_form_counterexample :
    renderStatement intShow intTruthy "->"
        { Source := (1 : Int), Target := some 0, Weight := 5, Attributes := [] } ≠
      specEdgeLine intShow "->"
        { Source := (1 : Int), Target := some 0, Weight := 5, Attributes := [] } 0 := by
  decide

/-- C2 amended: for every statement whose target is present and passes the
template truthiness test (it is not the zero value of its key type), the
renderer emits the line with source, edge operator, target and the bracket
clause of attributes and weight; an empty attribute mapping contributes no
attribute chunk, so its bracket clause holds only the weight. -/
theorem renderStatement_edge_form {K : Type} (shw : K → String) (truthy : K → Bool)
    (edgeOperator : String) (s : statement K) (t : K)
    (h : s.Target = some t) (ht : truthy t = true) :
    renderStatement shw truthy edgeOperator s = specEdgeLine shw edgeOperator s t ∧
      renderAttrs ([] : List (String × String)) = "" := by
  refine ⟨?_, rfl⟩
  simp [renderStatement, specEdgeLine, h, ht]

/-- Witness for the amended C2 at a concrete input. -/
theorem renderStatement_edge_form_witness :
    renderStatement intShow intTruthy "->"
          { Source := (1 : Int), Target := some 2, Weight := 5,
            Attributes := [("color", "red")] } =
        specEdgeLine intShow "->"
          { Source := (1 : Int), Target := some 2, Weight := 5,
            Attributes := [("color", "red")] } 2 ∧
      renderAttrs ([] : List (String × String)) = "" :=
  renderStatement_edge_form intShow intTruthy "->"
    { Source := (1 : Int), Target := some 2, Weight := 5, Attributes := [("color", "red")] }
    2 rfl rfl

lemma statements_generateDOT {K : Type} (traits : Traits) (m : AdjacencyMap K) :
    (generateDOT traits m).Statements = m.flatMap statementsOfEntry := rfl

lemma source_of_mem_statementsOfEntry {K : Type} {p : K × List (K × EdgeProperties)}
    {s : statement K} (hs : s ∈ statementsOfEntry p) : s.Source = p.1 := by
  unfold statementsOfEntry at hs
  by_cases h : p.2.isEmpty
  · simp [h] at hs
    subst hs
    rfl
  · simp [h] at hs
    obtain ⟨q, w, _, rfl⟩ := hs
    rfl

lemma filter_source_eq_nil {K : Type} [DecidableEq K] (m : AdjacencyMap K) (v : K)
    (hv : v ∉ m.map Prod.fst) :
    (m.flatMap statementsOfEntry).filter (fun s => decide (s.Source = v)) = [] := by
  rw [List.filter_eq_nil_iff]
  intro s hs
  rw [List.mem_flatMap] at hs
  obtain ⟨p, hp, hsp⟩ := hs
  have hsrc := source_of_mem_statementsOfEntry hsp
  have hp1 : p.1 ∈ m.map Prod.fst := List.mem_map_of_mem Prod.fst hp
  simp only [decide_eq_true_eq]
  intro hcon
  rw [hsrc] at hcon
  rw [hcon] at hp1
  exact hv hp1

lemma filter_source_isolated {K : Type} [DecidableEq K] (v : K) :
    ∀ m : AdjacencyMap K, (m.map Prod.fst).Nodup →
      (v, ([] : List (K × EdgeProperties))) ∈ m →
      (m.flatMap statementsOfEntry).filter (fun s => decide (s.Source = v)) =
        [isolatedStatement v] := by
  intro m
  induction m with
  | nil => intro _ hv; cases hv
  | cons p rest ih =>
    intro hnd hv
    rw [List.flatMap_cons, List.filter_append]
    rcases List.mem_cons.mp hv with hhead | htail
    · have hpv : p = (v, []) := hhead.symm
      subst hpv
      have hv2 : v ∉ rest.map Prod.fst := by
        rw [List.map_cons, List.nodup_cons] at hnd
        exact hnd.1
      rw [filter_source_eq_nil rest v hv2]
      simp [statementsOfEntry, isolatedStatement]
    · have hp1 : p.1 ∉ rest.map Prod.fst := by
        rw [List.map_cons, List.nodup_cons] at hnd
        exact hnd.1
      have hvm : v ∈ rest.map Prod.fst := List.mem_map_of_mem Prod.fst htail
      have hne : p.1 ≠ v := fun hc => hp1 (hc ▸ hvm)
      have hhead0 : (statementsOfEntry p).filter (fun s => decide (s.Source = v)) = [] := by
        rw [List.filter_eq_nil_iff]
        intro s hs
        have hsrc := source_of_mem_statementsOfEntry hs
        simp only [decide_eq_true_eq]
        intro hcon
        rw [hsrc] at hcon
        exact hne hcon
      rw [hhead0, List.nil_append]
      refine ih ?_ htail
      rw [List.map_cons, List.nodup_cons] at hnd
      exact hnd.2

/-- C3: a vertex whose adjacency set is empty contributes exactly one
statement, with itself as source and no target, whatever the directedness
trait says; the rendered line of that statement has no edge operator, no
target and no bracket clause. -/
theorem generateDOT_isolated_vertex {K : Type} [DecidableEq K]
    (shw : K → String) (truthy : K → Bool) (edgeOperator : String)
    (traits : Traits) (m : AdjacencyMap K) (v : K)
    (hnd : (m.map Prod.fst).Nodup)
    (hv : (v, ([] : List (K × EdgeProperties))) ∈ m) :
    (generateDOT traits m).Statements.filter (fun s => decide (s.Source = v)) =
        [isolatedStatement v] ∧
      renderStatement shw truthy edgeOperator (isolatedStatement v) =
        "\n\t" ++ shw v ++ " ;\n" := by
  refine ⟨?_, rfl⟩
  rw [statements_generateDOT]
  exact filter_source_isolated v m hnd hv

/-- Witness for C3 at a concrete input: the directed adjacency map with
vertex 1 isolated and an edge from 2 to 3. -/
theorem generateDOT_isolated_vertex_witness :
    (generateDOT { IsDirected := true, IsAcyclic := false, IsWeighted := false, IsRooted := false }
          [((1 : Int), []), (2, [(3, { Weight := 4, Attributes := [] })])]).Statements.filter
        (fun s => decide (s.Source = 1)) = [isolatedStatement 1] ∧
      renderStatement intShow intTruthy "->" (isolatedStatement (1 : Int)) =
        "\n\t" ++ intShow 1 ++ " ;\n" :=
  generateDOT_isolated_vertex intShow intTruthy "->"
    { IsDirected := true, IsAcyclic := false, IsWeighted := false, IsRooted := false }
    [((1 : Int), []), (2, [(3, { Weight := 4, Attributes := [] })])] 1
    (by decide) (by decide)

lemma edge_statement_count {K : Type} :
    ∀ m : AdjacencyMap K,
      ((m.flatMap statementsOfEntry).filter (fun s => s.Target.isSome)).length =
        (m.map (fun p => p.2.length)).sum := by
  intro m
  induction m with
  | nil => rfl
  | cons p rest ih =>
    rw [List.flatMap_cons, List.filter_append, List.length_append, ih,
      List.map_cons, List.sum_cons]
    congr 1
    by_cases h : p.2.isEmpty
    · have hp2 : p.2 = [] := List.isEmpty_iff.mp h
      simp [statementsOfEntry, h, isolatedStatement, hp2]
    · simp [statementsOfEntry, h, List.filter_map, Function.comp, edgeStatement]

lemma isolated_statement_count {K : Type} :
    ∀ m : AdjacencyMap K,
      ((m.flatMap statementsOfEntry).filter (fun s => s.Target.isNone)).length =
        (m.filter (fun p => p.2.isEmpty)).length := by
  intro m
  induction m with
  | nil => rfl
  | cons p rest ih =>
    rw [List.flatMap_cons, List.filter_append, List.length_append, ih]
    by_cases h : p.2.isEmpty
    · simp [statementsOfEntry, h, isolatedStatement, List.filter_cons, Nat.add_comm]
    · simp [statementsOfEntry, h, List.filter_cons, List.filter_map, Function.comp,
        edgeStatement]

lemma mem_statementsOfEntry_iff {K : Type} (p : K × List (K × EdgeProperties))
    (s : statement K) :
    s ∈ statementsOfEntry p ↔
      (p.2 = [] ∧ s = isolatedStatement p.1) ∨ ∃ q ∈ p.2, s = edgeStatement p.1 q := by
  unfold statementsOfEntry
  by_cases h : p.2.isEmpty
  · have hp2 : p.2 = [] := List.isEmpty_iff.mp h
    simp [h, hp2]
  · have hp2 : p.2 ≠ [] := by simpa [List.isEmpty_iff] using h
    simp [h, hp2, eq_comm]

/-- C4: the statement sequence built by `generateDOT` holds one edge
statement per adjacency entry — source, target, weight and attributes
copied verbatim from the entry — plus one isolated-vertex statement per
vertex with an empty adjacency set and nothing else; the edge-statement
count equals the total number of adjacency entries across all vertices. -/
theorem generateDOT_statement_inventory {K : Type} (traits : Traits) (m : AdjacencyMap K) :
    (((generateDOT traits m).Statements.filter (fun s => s.Target.isSome)).length =
        (m.map (fun p => p.2.length)).sum) ∧
      (((generateDOT traits m).Statements.filter (fun s => s.Target.isNone)).length =
        (m.filter (fun p => p.2.isEmpty)).length) ∧
      ∀ s : statement K, s ∈ (generateDOT traits m).Statements ↔
        ∃ p ∈ m, (p.2 = [] ∧ s = isolatedStatement p.1) ∨
          ∃ q ∈ p.2, s = edgeStatement p.1 q := by
  refine ⟨edge_statement_count m, isolated_statement_count m, ?_⟩
  intro s
  rw [statements_generateDOT, List.mem_flatMap]
  exact exists_congr fun p => and_congr_right fun _ => mem_statementsOfEntry_iff p s

lemma sorted_attr_perm_eq :
    ∀ l1 l2 : List (String × String), l1.Perm l2 →
      l1.Pairwise attrLE → l2.Pairwise attrLE → (l1.map Prod.fst).Nodup →
      l1 = l2 := by
  intro l1
  induction l1 with
  | nil =>
    intro l2 h _ _ _
    exact (h.symm.eq_nil).symm
  | cons a t1 ih =>
    intro l2 h hs1 hs2 hnd
    cases l2 with
    | nil => exact absurd h.eq_nil (by simp)
    | cons b t2 =>
      have hab : a = b := by
        have ha2 : a ∈ b :: t2 := h.subset (List.mem_cons_self a t1)
        rcases List.mem_cons.mp ha2 with h1 | h1
        · exact h1
        · have hb1 : b ∈ a :: t1 := h.symm.subset (List.mem_cons_self b t2)
          rcases List.mem_cons.mp hb1 with h2 | h2
          · exact h2.symm
          · have hle1 : a.1 ≤ b.1 := (List.pairwise_cons.mp hs1).1 b h2
            have hle2 : b.1 ≤ a.1 := (List.pairwise_cons.mp hs2).1 a h1
            have hkey : a.1 = b.1 := le_antisymm hle1 hle2
            have hnd2 : ((b :: t2).map Prod.fst).Nodup := (h.map Prod.fst).nodup hnd
            rw [List.map_cons, List.nodup_cons] at hnd2
            have hmem : b.1 ∈ t2.map Prod.fst := hkey ▸ List.mem_map_of_mem Prod.fst h1
            exact absurd hmem hnd2.1
      subst hab
      have ht : t1.Perm t2 := h.cons_inv
      have heq := ih t2 ht (List.pairwise_cons.mp hs1).2 (List.pairwise_cons.mp hs2).2
        (by rw [List.map_cons, List.nodup_cons] at hnd; exact hnd.2)
      rw [heq]

/-- C10: within one rendered bracket clause the attribute chunks appear in
ascending key order, and with distinct keys the rendered clause is
invariant under permuting the attribute list, so attribute ordering is
deterministic however the mapping was populated. -/
theorem renderAttrs_sorted_deterministic (attrs attrs2 : List (String × String))
    (hnd : (attrs.map Prod.fst).Nodup) (hperm : attrs.Perm attrs2) :
    List.Sorted (fun a b : String => a ≤ b) ((sortAttrs attrs).map Prod.fst) ∧
      renderAttrs attrs = renderAttrs attrs2 := by
  constructor
  · exact List.pairwise_map.mpr (List.sorted_insertionSort attrLE attrs)
  · have h1 : sortAttrs attrs = sortAttrs attrs2 := by
      apply sorted_attr_perm_eq
      · exact (List.perm_insertionSort attrLE attrs).trans
          (hperm.trans (List.perm_insertionSort attrLE attrs2).symm)
      · exact List.sorted_insertionSort attrLE attrs
      · exact List.sorted_insertionSort attrLE attrs2
      · exact (((List.perm_insertionSort attrLE attrs).map Prod.fst)).symm.nodup hnd
    unfold renderAttrs
    rw [h1]

/-- Witness for C10 at a concrete input: two listings of the same
two-attribute mapping render identically and in sorted key order. -/
theorem renderAttrs_sorted_deterministic_witness :
    List.Sorted (fun a b : String => a ≤ b)
        ((sortAttrs [("color", "red"), ("arrowhead", "diamond")]).map Prod.fst) ∧
      renderAttrs [("color", "red"), ("arrowhead", "diamond")] =
        renderAttrs [("arrowhead", "diamond"), ("color", "red")] :=
  renderAttrs_sorted_deterministic _ _ (by decide) (List.Perm.swap _ _ _)

/-- Witness for C6: an edge statement targeting vertex 0, with weight and an
attribute, still renders as a bare source line. -/
theorem renderStatement_zero_target_witness :
    renderStatement intShow intTruthy "->"
        { Source := (1 : Int), Target := some 0, Weight := 5,
          Attributes := [("color", "red")] } =
      "\n\t" ++
        intShow
          (statement.Source
            { Source := (1 : Int), Target := some 0, Weight := 5,
              Attributes := [("color", "red")] }) ++ " ;\n" :=
  renderStatement_zero_target.1
    { Source := (1 : Int), Target := some 0, Weight := 5, Attributes := [("color", "red")] }
    0 "->" rfl rfl

end draw
